import Mathlib

/-!
Verification of the multi-platform audio downloader (single Python module,
`spoti-down-m4a-opus-v4.2.py`) against its specification.

The Python code is shallowly embedded: pure string manipulation becomes Lean
functions over `String` / `List Char` with Python semantics (`str.split`,
substring containment via `in`, `str.replace`), JSON values become the
inductive `JVal`, dicts become key-unique association lists in insertion
order, operations that can raise a Python exception return `Option` (with
`none` for the raising case), and the network-bound collaborators
(Spotify metadata fetch, yt-dlp extraction, YouTube search download) are
abstracted as an oracle environment `Env` consumed by the orchestrator
model `main_run`.
-/

/-! ### Python-flavoured string primitives -/

/-- `startsWith needle hay`: the char list `needle` is an initial segment of `hay`. -/
def startsWith : List Char → List Char → Bool
  | [], _ => true
  | _ :: _, [] => false
  | a :: as, b :: bs => a == b && startsWith as bs

/-- `hasSub needle hay`: Python `needle in hay` substring containment
(case-sensitive, exact chars). -/
def hasSub (needle : List Char) : List Char → Bool
  | [] => needle.isEmpty
  | c :: t => startsWith needle (c :: t) || hasSub needle t

/-- Spec-side reading of substring containment: `hay` decomposes around `needle`. -/
def containsSub (needle hay : String) : Prop :=
  ∃ p t : List Char, hay.data = p ++ needle.data ++ t

/-- Fuelled worker for Python `str.split(sep)` with non-empty separator
`s0 :: s`: greedy left-to-right scan over non-overlapping occurrences.
Fuel at least the length of the input makes the fuel irrelevant. -/
def splitGo (s0 : Char) (s : List Char) : Nat → List Char → List (List Char)
  | _, [] => [[]]
  | 0, xs => [xs]
  | f + 1, c :: rest =>
    if startsWith (s0 :: s) (c :: rest) then
      [] :: splitGo s0 s f (rest.drop s.length)
    else
      match splitGo s0 s f rest with
      | [] => [[c]]
      | h :: t => (c :: h) :: t

/-- Python `xs.split(sep)` for a non-empty separator (Python raises on an
empty separator; the program only ever splits on non-empty literals). -/
def pySplit (sep xs : String) : List String :=
  match sep.data with
  | [] => [xs]
  | s0 :: s => (splitGo s0 s xs.data.length xs.data).map String.mk

/-- Python `s.replace('-', ' ')` (single-character pattern, hence a char map). -/
def dashToSpace (s : String) : String :=
  String.mk (s.data.map (fun c => if c == '-' then ' ' else c))

/-- `cleanPre sep a`: no greedy scan position strictly inside `a` starts an
occurrence of `sep` in `a ++ sep ++ anything` (the first `sep.length` chars
from any position inside `a` lie within `a ++ sep`, so the suffix beyond
`sep` is irrelevant). -/
def cleanPre (sep : List Char) : List Char → Bool
  | [] => true
  | c :: a => !(startsWith sep (c :: a ++ sep)) && cleanPre sep a

/-- First-match lookup in an association list; models Python dict access
(dict keys are unique, iteration follows insertion order). -/
def assocLookup {α : Type} : List (String × α) → String → Option α
  | [], _ => none
  | (k, v) :: t, key => if k == key then some v else assocLookup t key

/-! ### JSON value model -/

/-- JSON values as produced by `response.json()`: strings, non-negative
integers (the numbers this program meets are durations and counts), arrays,
string-keyed objects, and null. -/
inductive JVal : Type
  | str (s : String)
  | num (n : Nat)
  | arr (xs : List JVal)
  | obj (fields : List (String × JVal))
  | null

/-- Python `len(v)`: defined on str, list and dict, `TypeError` (`none`) on
numbers and `None`. -/
def pyLen : JVal → Option Nat
  | .str s => some s.length
  | .arr xs => some xs.length
  | .obj fs => some fs.length
  | .num _ => none
  | .null => none

/-- Python `v[0]`: first element of a list, first character of a string
(as a one-character string), `KeyError` on a string-keyed dict (no key `0`),
`TypeError` otherwise. -/
def pyIndex0 : JVal → Option JVal
  | .arr xs => xs.head?
  | .str s => s.data.head?.map (fun c => .str (String.mk [c]))
  | .obj _ => none
  | .num _ => none
  | .null => none

/-- Python `for x in v`: iterates list elements, the characters of a string
(each a one-character string), the keys of a dict; `TypeError` on numbers
and `None`. -/
def pyIter : JVal → Option (List JVal)
  | .arr xs => some xs
  | .str s => some (s.data.map (fun c => .str (String.mk [c])))
  | .obj fs => some (fs.map (fun p => .str p.fst))
  | .num _ => none
  | .null => none

/-- Python `v["name"]`: dict subscription (`KeyError` when absent),
`TypeError` on every non-dict value. -/
def pySubscriptName : JVal → Option JVal
  | .obj fs => assocLookup fs "name"
  | _ => none

/-- Sequential left-to-right mapping where the first raising element aborts:
models a Python list comprehension over `f`. -/
def mapOpt (f : JVal → Option JVal) : List JVal → Option (List JVal)
  | [] => some []
  | x :: t =>
    match f x, mapOpt f t with
    | some y, some ys => some (y :: ys)
    | _, _ => none

/-- All elements must be Python strings (otherwise `str.join` raises). -/
def strVals : List JVal → Option (List String)
  | [] => some []
  | .str s :: t => (strVals t).map (fun ss => s :: ss)
  | _ :: _ => none

/-- Python `sep.join(xs)`: `TypeError` (`none`) unless every element is a string. -/
def pyJoin (sep : String) (xs : List JVal) : Option String :=
  (strVals xs).map (fun ss => String.intercalate sep ss)

mutual

/-- Python `repr(v)` for the modelled JSON values (string escaping of quotes
inside string payloads is not modelled; the program never prints such data). -/
def pyRepr : JVal → String
  | .str s => "\x27" ++ s ++ "\x27"
  | .num n => toString n
  | .null => "None"
  | .arr xs => "[" ++ pyReprList xs ++ "]"
  | .obj fs => "\x7b" ++ pyReprFields fs ++ "\x7d"

/-- Comma-separated reprs of list elements. -/
def pyReprList : List JVal → String
  | [] => ""
  | [x] => pyRepr x
  | x :: y :: t => pyRepr x ++ ", " ++ pyReprList (y :: t)

/-- Comma-separated reprs of dict entries. -/
def pyReprFields : List (String × JVal) → String
  | [] => ""
  | [(k, v)] => "\x27" ++ k ++ "\x27: " ++ pyRepr v
  | (k, v) :: p :: t => "\x27" ++ k ++ "\x27: " ++ pyRepr v ++ ", " ++ pyReprFields (p :: t)

end

/-- Python `str(v)` as used by f-string interpolation: identity on strings,
`repr` otherwise. -/
def pyStr : JVal → String
  | .str s => s
  | v => pyRepr v

/-! ### JioSaavn resolver (`JioSaavnAPI`) -/

/-- The loop at the end of `get_song_details`: first top-level key whose
value is a dict, scanning keys in insertion order. -/
def firstDictValue : List (String × JVal) → Option JVal
  | [] => none
  | (_, v) :: t =>
    match v with
    | .obj fs => some (.obj fs)
    | _ => firstDictValue t

/-- Data-extraction part of `JioSaavnAPI.get_song_details` (source lines
37-53), applied to the parsed JSON response `data` and the requested
`song_id`. The surrounding `except` clause converts any raised error into
`None`, hence the `none` results on the raising paths. -/
def get_song_details (data : JVal) (song_id : String) : Option JVal :=
  match data with
  | .obj fs =>
    match assocLookup fs song_id with
    | some v => some v
    | none =>
      match assocLookup fs "songs" with
      | some sv =>
        match pyLen sv with
        | none => none
        | some n =>
          if 0 < n then pyIndex0 sv
          else firstDictValue fs
      | none => firstDictValue fs
  | _ => none

/-- The fallback chain exactly as the specification words it: the id as a
top-level key, else the first element of a non-empty "songs" array, else the
first dict-valued top-level key, else null. -/
def spec_song_fallback (fs : List (String × JVal)) (song_id : String) : Option JVal :=
  match assocLookup fs song_id with
  | some v => some v
  | none =>
    match assocLookup fs "songs" with
    | some (.arr (x :: _)) => some x
    | _ => firstDictValue fs

/-- `JioSaavnAPI.get_audio_url` (source lines 61-77); the network-bound
`decrypt_url` call is abstracted as the oracle `decrypt` (it has its own
`try` and returns `None` on failure, so it never raises into this function). -/
def get_audio_url (song_details : List (String × JVal))
    (decrypt : JVal → Option JVal) : Option JVal :=
  match assocLookup song_details "encrypted_media_url" with
  | some enc => decrypt enc
  | none =>
    match assocLookup song_details "media_preview_url" with
    | some p => some p
    | none => none

/-! ### Spotify resolver (`SpotifyAPI`) -/

/-- Track-id extraction from `SpotifyAPI.get_track_info` (source line 139):
`track_url.split("/track/")[-1].split("?")[0]`. -/
def extract_track_id (track_url : String) : String :=
  ((pySplit "?" ((pySplit "/track/" track_url).getLastD "")).headD "")

/-! ### Quality presets (`AudioDownloader`) -/

/-- One entry of `AudioDownloader.QUALITY_PRESETS`. -/
structure Preset where
  name : String
  codec : String
  bitrate : Option String
  deriving DecidableEq

/-- `AudioDownloader.QUALITY_PRESETS` (source lines 155-159). -/
def QUALITY_PRESETS : List (String × Preset) :=
  [("1", ⟨"M4A 320kbps (Best Quality)", "m4a", some "320"⟩),
   ("2", ⟨"Opus 160kbps (High Efficiency)", "opus", some "160"⟩),
   ("3", ⟨"Best Available (No Conversion)", "best", none⟩)]

/-- `QUALITY_PRESETS.get(quality_choice, QUALITY_PRESETS['1'])`
(source line 176): the preset-resolution step of `get_download_options`. -/
def presets_get (quality_choice : String) : Preset :=
  (assocLookup QUALITY_PRESETS quality_choice).getD
    ((assocLookup QUALITY_PRESETS "1").getD ⟨"", "", none⟩)

/-- One yt-dlp postprocessor dict as built on source lines 190-196;
`preferredquality` is present exactly when the preset bitrate is truthy. -/
structure Postprocessor where
  key : String
  preferredcodec : String
  preferredquality : Option String
  deriving DecidableEq

/-- The yt-dlp options dict built by `AudioDownloader.get_download_options`
(source lines 174-200), restricted to the fields the function sets. -/
structure YdlOpts where
  format : String
  outtmpl : String
  quiet : Bool
  keepvideo : Bool
  postprocessors : List Postprocessor
  deriving DecidableEq

/-- `AudioDownloader.get_download_options` (source lines 174-200). -/
def get_download_options (output_dir : String) (quality_choice : String) : YdlOpts :=
  let preset := presets_get quality_choice
  { format := "bestaudio/best"
    outtmpl := output_dir ++ "/%(title)s.%(ext)s"
    quiet := false
    keepvideo := true
    postprocessors :=
      if preset.codec == "best" then []
      else [{ key := "FFmpegExtractAudio"
              preferredcodec := preset.codec
              preferredquality :=
                match preset.bitrate with
                | some b => if b == "" then none else some b
                | none => none }] }

/-! ### Duration formatting in `main` -/

/-- Python `f"{n:02d}"` for the non-negative values this program formats. -/
def pad2 (n : Nat) : String :=
  if n < 10 then "0" ++ toString n else toString n

/-- Duration display of the JioSaavn branch (source lines 309-310 and 317):
seconds split as `duration // 60` and `duration % 60`. -/
def format_duration_sec (duration : Nat) : String :=
  toString (duration / 60) ++ ":" ++ pad2 (duration % 60)

/-- Duration display of the Spotify branch (source lines 347-348 and 357):
milliseconds split as `duration_ms // 60000` and `(duration_ms % 60000) // 1000`. -/
def format_duration_ms (duration_ms : Nat) : String :=
  toString (duration_ms / 60000) ++ ":" ++ pad2 ((duration_ms % 60000) / 1000)

/-! ### The orchestrator `main` -/

/-- `detect_url_type` returns one of the three literals
`'spotify' | 'jiosaavn' | 'other'`. -/
inductive UrlCategory : Type
  | spotify
  | jiosaavn
  | other
  deriving DecidableEq

/-- `detect_url_type` (source lines 251-258): case-sensitive substring tests. -/
def detect_url_type (url : String) : UrlCategory :=
  if hasSub "spotify.com".data url.data then .spotify
  else if hasSub "jiosaavn.com".data url.data || hasSub "saavn.com".data url.data then
    .jiosaavn
  else .other

/-- JioSaavn YouTube-fallback phrase (source line 328):
`url.split('/song/')[-1].split('/')[0].replace('-', ' ')`. -/
def jio_song_name (url : String) : String :=
  dashToSpace ((pySplit "/" ((pySplit "/song/" url).getLastD "")).headD "")

/-- Metadata extraction and search-phrase construction of the Spotify branch
(source lines 342-364). `none` models a Python exception raised in `main`
(uncaught: the program aborts before any download): a non-dict response, a
non-iterable `artists` value, an artist entry that is not a dict or lacks
`name`, a non-dict `album` value, a non-integer `duration_ms`, or a
non-string artist name reaching `' '.join`. On the non-raising paths the
result is the query of line 364: the track name (default "Unknown"),
a space, and the space-joined artist names. -/
def spotify_search_query (track_info : JVal) : Option String :=
  match track_info with
  | .obj fs =>
    let nameV := (assocLookup fs "name").getD (.str "Unknown")
    let artistsV := (assocLookup fs "artists").getD (.arr [])
    match pyIter artistsV with
    | none => none
    | some items =>
      match mapOpt pySubscriptName items with
      | none => none
      | some artists =>
        match (assocLookup fs "album").getD (.obj []) with
        | .obj _ =>
          match (assocLookup fs "duration_ms").getD (.num 0) with
          | .num _ =>
            match pyJoin ", " artists with
            | none => none
            | some _ =>
              match pyJoin " " artists with
              | none => none
              | some joined => some (pyStr nameV ++ " " ++ joined)
          | _ => none
        | _ => none
  | _ => none

/-- Terminal state of one run. -/
inductive Outcome : Type
  | succeeded
  | failed
  deriving DecidableEq

/-- One invocation of the external download capability: direct yt-dlp
extraction of a platform URL, or a `ytsearch1:` YouTube search download. -/
inductive Attempt : Type
  | direct (url : String) (quality : String)
  | search (query : String) (quality : String)
  deriving DecidableEq

/-- Observable trace of one `main` run: terminal outcome, whether the
Spotify resolver was invoked, and the download attempts in order. The
resolver call and the download attempts are the only network operations
`main` performs. -/
structure RunResult where
  outcome : Outcome
  spotifyResolverCalled : Bool
  attempts : List Attempt
  deriving DecidableEq

/-- Oracle for the external collaborators: the parsed JSON the Spotify
resolver would return (`none` for any auth/HTTP/JSON failure), whether the
direct JioSaavn yt-dlp extraction block completes without raising, and
whether a YouTube search download reports success. -/
structure Env where
  spotifyResult : Option JVal
  jioDirectOk : Bool
  youtubeOk : Bool

/-- Python truthiness on the modelled JSON values: `not v` holds for `None`,
`0`, the empty string, the empty list and the empty dict. -/
def pyFalsy : JVal → Bool
  | .str s => s.isEmpty
  | .num n => n == 0
  | .arr xs => xs.isEmpty
  | .obj fs => fs.isEmpty
  | .null => true

/-- The branching body of `main` (source lines 279-368) after the URL and
the validated quality key have been read. Line 337 guards the Spotify branch
with `if not track_info:`, a truthiness test, so both a `None` resolver
result and a falsy JSON result (empty dict, empty string, `0`, empty list,
JSON null) take the failure exit before any download. `none` models an
uncaught Python exception (the Spotify branch aborting inside metadata
extraction of a truthy response). -/
def main_run (url : String) (quality : String) (env : Env) : Option RunResult :=
  match detect_url_type url with
  | .jiosaavn =>
    if env.jioDirectOk then
      some ⟨.succeeded, false, [.direct url quality]⟩
    else
      some ⟨(if env.youtubeOk then .succeeded else .failed), false,
            [.direct url quality, .search (jio_song_name url) quality]⟩
  | .spotify =>
    match env.spotifyResult with
    | none => some ⟨.failed, true, []⟩
    | some info =>
      if pyFalsy info then some ⟨.failed, true, []⟩
      else
        match spotify_search_query info with
        | none => none
        | some q =>
          some ⟨(if env.youtubeOk then .succeeded else .failed), true, [.search q quality]⟩
  | .other => some ⟨.failed, false, []⟩

/-! ### Characterization lemmas for the string primitives -/

theorem startsWith_iff (n : List Char) : ∀ h : List Char,
    startsWith n h = true ↔ ∃ t, h = n ++ t := by
  induction n with
  | nil => intro h; simp [startsWith]
  | cons a as ih =>
    intro h
    cases h with
    | nil => simp [startsWith]
    | cons b bs =>
      simp only [startsWith, Bool.and_eq_true, beq_iff_eq, ih, List.cons_append]
      constructor
      · rintro ⟨rfl, t, rfl⟩
        exact ⟨t, rfl⟩
      · rintro ⟨t, heq⟩
        injection heq with hb hbs
        exact ⟨hb.symm, t, hbs⟩

theorem hasSub_iff (n : List Char) : ∀ h : List Char,
    hasSub n h = true ↔ ∃ p t, h = p ++ n ++ t := by
  intro h
  induction h with
  | nil =>
    simp only [hasSub, List.isEmpty_iff]
    constructor
    · rintro rfl
      exact ⟨[], [], rfl⟩
    · rintro ⟨p, t, heq⟩
      rcases List.append_eq_nil.mp heq.symm with ⟨h1, h2⟩
      exact (List.append_eq_nil.mp h1).2
  | cons c tl ih =>
    simp only [hasSub, Bool.or_eq_true, startsWith_iff, ih]
    constructor
    · rintro (⟨t, heq⟩ | ⟨p, t, heq⟩)
      · exact ⟨[], t, by simpa using heq⟩
      · exact ⟨c :: p, t, by simp [heq]⟩
    · rintro ⟨p, t, heq⟩
      cases p with
      | nil => exact Or.inl ⟨t, by simpa using heq⟩
      | cons d p' =>
        simp only [List.cons_append] at heq
        injection heq with hcd htl
        exact Or.inr ⟨p', t, htl⟩

theorem containsSub_iff (needle hay : String) :
    containsSub needle hay ↔ hasSub needle.data hay.data = true := by
  unfold containsSub
  exact (hasSub_iff needle.data hay.data).symm

theorem startsWith_self_append (p : List Char) : ∀ t, startsWith p (p ++ t) = true := by
  induction p with
  | nil => intro t; rfl
  | cons a as ih => intro t; simp [startsWith, ih]

theorem startsWith_append_indep (sep : List Char) : ∀ w tail : List Char,
    sep.length ≤ w.length → startsWith sep (w ++ tail) = startsWith sep w := by
  induction sep with
  | nil => intro w tail _; rfl
  | cons a as ih =>
    intro w tail hlen
    cases w with
    | nil => simp at hlen
    | cons c w' =>
      simp only [List.cons_append, startsWith, List.append_eq]
      rw [ih w' tail (Nat.le_of_succ_le_succ hlen)]

/-! ### Split worker lemmas -/

theorem splitGo_fuelIrrel (s0 : Char) (s : List Char) :
    ∀ f g xs, xs.length ≤ f → xs.length ≤ g →
      splitGo s0 s f xs = splitGo s0 s g xs := by
  intro f
  induction f with
  | zero =>
    intro g xs hf _
    have hx : xs = [] := List.eq_nil_of_length_eq_zero (Nat.le_zero.mp hf)
    subst hx
    cases g <;> rfl
  | succ f ih =>
    intro g xs hf hg
    cases xs with
    | nil => cases g <;> rfl
    | cons c rest =>
      cases g with
      | zero => simp at hg
      | succ g' =>
        have hrf : rest.length ≤ f := by simpa using hf
        have hrg : rest.length ≤ g' := by simpa using hg
        simp only [splitGo]
        by_cases hsw : startsWith (s0 :: s) (c :: rest) = true
        · rw [if_pos hsw, if_pos hsw]
          have hdf : (rest.drop s.length).length ≤ f := by
            rw [List.length_drop]
            omega
          have hdg : (rest.drop s.length).length ≤ g' := by
            rw [List.length_drop]
            omega
          rw [ih g' _ hdf hdg]
        · rw [if_neg hsw, if_neg hsw, ih g' rest hrf hrg]

theorem splitGo_noOcc (s0 : Char) (s : List Char) :
    ∀ xs, hasSub (s0 :: s) xs = false →
      ∀ f, xs.length ≤ f → splitGo s0 s f xs = [xs] := by
  intro xs
  induction xs with
  | nil => intro _ f _; cases f <;> rfl
  | cons c rest ih =>
    intro hno f hf
    cases f with
    | zero => simp at hf
    | succ f' =>
      obtain ⟨h1, h2⟩ : startsWith (s0 :: s) (c :: rest) = false ∧
          hasSub (s0 :: s) rest = false := by
        simpa [hasSub] using hno
      have hrest : rest.length ≤ f' := by simpa using hf
      simp only [splitGo]
      rw [if_neg (by simp [h1]), ih h2 f' hrest]

theorem splitGo_boundary (s0 : Char) (s : List Char) (tail : List Char) :
    ∀ a : List Char, cleanPre (s0 :: s) a = true →
      ∀ f, (a ++ (s0 :: s) ++ tail).length ≤ f →
        splitGo s0 s f (a ++ (s0 :: s) ++ tail) = a :: splitGo s0 s tail.length tail := by
  intro a
  induction a with
  | nil =>
    intro _ f hf
    simp only [List.nil_append] at hf ⊢
    cases f with
    | zero => simp at hf
    | succ f' =>
      have hlen : tail.length ≤ f' := by
        simp [List.length_append] at hf
        omega
      simp only [List.cons_append, splitGo, List.append_eq]
      rw [if_pos (by simpa [List.cons_append] using startsWith_self_append (s0 :: s) tail)]
      rw [List.drop_left]
      rw [splitGo_fuelIrrel s0 s f' tail.length tail hlen (Nat.le_refl _)]
  | cons c a' ih =>
    intro hc f hf
    obtain ⟨h1, h2⟩ : startsWith (s0 :: s) (c :: a' ++ (s0 :: s)) = false ∧
        cleanPre (s0 :: s) a' = true := by
      have := hc
      simp only [cleanPre, Bool.and_eq_true, Bool.not_eq_true'] at this
      exact this
    cases f with
    | zero => simp at hf
    | succ f' =>
      have hlen : (a' ++ (s0 :: s) ++ tail).length ≤ f' := by
        simp [List.length_append] at hf ⊢
        omega
      have hne : startsWith (s0 :: s) (c :: (a' ++ s0 :: (s ++ tail))) = false := by
        have hasm : c :: (a' ++ s0 :: (s ++ tail)) = (c :: (a' ++ (s0 :: s))) ++ tail := by
          simp [List.append_assoc]
        rw [hasm, startsWith_append_indep (s0 :: s) (c :: (a' ++ (s0 :: s))) tail
            (by simp [List.length_append]; omega)]
        exact h1
      simp only [List.cons_append, splitGo, List.append_eq]
      rw [if_neg (by simp [hne]), ih h2 f' hlen]

theorem cleanPre_single (q : Char) : ∀ a : List Char,
    hasSub [q] a = false → cleanPre [q] a = true := by
  intro a
  induction a with
  | nil => intro _; rfl
  | cons c a' ih =>
    intro hno
    obtain ⟨h1, h2⟩ : startsWith [q] (c :: a') = false ∧ hasSub [q] a' = false := by
      simpa [hasSub] using hno
    have hq : (q == c) = false := by simpa [startsWith] using h1
    simp only [cleanPre, Bool.and_eq_true, Bool.not_eq_true']
    exact ⟨by simp [startsWith, hq], ih h2⟩

theorem pySplit_cons (s0 : Char) (s : List Char) (sep x : String)
    (hsep : sep.data = s0 :: s) :
    pySplit sep x = (splitGo s0 s x.data.length x.data).map String.mk := by
  unfold pySplit
  rw [hsep]

theorem pySplit_split (sep a tail x : String) (s0 : Char) (s : List Char)
    (hsep : sep.data = s0 :: s)
    (hx : x.data = a.data ++ (s0 :: s) ++ tail.data)
    (hc : cleanPre (s0 :: s) a.data = true)
    (hno : hasSub (s0 :: s) tail.data = false) :
    pySplit sep x = [a, tail] := by
  rw [pySplit_cons s0 s sep x hsep, hx,
      splitGo_boundary s0 s tail.data a.data hc _ (Nat.le_refl _),
      splitGo_noOcc s0 s tail.data hno tail.data.length (Nat.le_refl _)]
  rfl

theorem pySplit_head (sep a tail x : String) (s0 : Char) (s : List Char)
    (hsep : sep.data = s0 :: s)
    (hx : x.data = a.data ++ (s0 :: s) ++ tail.data)
    (hc : cleanPre (s0 :: s) a.data = true) :
    (pySplit sep x).headD "" = a := by
  rw [pySplit_cons s0 s sep x hsep, hx,
      splitGo_boundary s0 s tail.data a.data hc _ (Nat.le_refl _)]
  rfl

/-! ### Claim theorems -/

/-- Claim C1: for every URL string, `detect_url_type` returns `spotify` when
the string contains the substring "spotify.com"; otherwise `jiosaavn` when it
contains "jiosaavn.com" or "saavn.com"; otherwise `other`. Containment is
case-sensitive substring containment; the function is a total pure function. -/
theorem detect_url_type_spec (url : String) :
    (containsSub "spotify.com" url → detect_url_type url = .spotify) ∧
    (¬ containsSub "spotify.com" url →
      (containsSub "jiosaavn.com" url ∨ containsSub "saavn.com" url) →
      detect_url_type url = .jiosaavn) ∧
    (¬ containsSub "spotify.com" url → ¬ containsSub "jiosaavn.com" url →
      ¬ containsSub "saavn.com" url → detect_url_type url = .other) := by
  refine ⟨?_, ?_, ?_⟩
  · intro h
    rw [containsSub_iff] at h
    simp [detect_url_type, h]
  · intro hs hj
    have hs' : hasSub "spotify.com".data url.data = false := by
      rw [containsSub_iff] at hs
      exact Bool.eq_false_iff.mpr hs
    rcases hj with hj | hj
    · rw [containsSub_iff] at hj
      simp [detect_url_type, hs', hj]
    · rw [containsSub_iff] at hj
      simp [detect_url_type, hs', hj]
  · intro hs hj hv
    have hs' : hasSub "spotify.com".data url.data = false := by
      rw [containsSub_iff] at hs
      exact Bool.eq_false_iff.mpr hs
    have hj' : hasSub "jiosaavn.com".data url.data = false := by
      rw [containsSub_iff] at hj
      exact Bool.eq_false_iff.mpr hj
    have hv' : hasSub "saavn.com".data url.data = false := by
      rw [containsSub_iff] at hv
      exact Bool.eq_false_iff.mpr hv
    simp [detect_url_type, hs', hj', hv']

/-- Witness for C1 at a concrete Spotify URL. -/
theorem detect_url_type_spec_witness :
    detect_url_type "https://open.spotify.com/track/x" = .spotify :=
  (detect_url_type_spec "https://open.spotify.com/track/x").1
    ((containsSub_iff "spotify.com" "https://open.spotify.com/track/x").mpr (by decide))

/-- Claim C2 (amended): for every dict-shaped details response in which the
"songs" key, when present, maps to an array, `get_song_details` returns
exactly the fallback chain of the specification: the requested id as a
top-level key, else the first element of a non-empty "songs" array, else the
first dict-valued top-level key, else null. (When "songs" maps to a
non-array value the code instead measures and indexes that value, which can
diverge from the claimed chain: a non-empty dict under "songs" raises a
KeyError that is caught, yielding null, and a non-empty string yields its
first character; an empty dict or string happens to agree with the chain.
See the counterexample.) -/
theorem get_song_details_fallback (fs : List (String × JVal)) (song_id : String)
    (h : assocLookup fs "songs" = none ∨
      ∃ xs, assocLookup fs "songs" = some (.arr xs)) :
    get_song_details (.obj fs) song_id = spec_song_fallback fs song_id := by
  rcases hid : assocLookup fs song_id with _ | v
  · rcases h with h | ⟨xs, h⟩
    · simp [get_song_details, spec_song_fallback, hid, h]
    · rcases xs with _ | ⟨x, t⟩
      · simp [get_song_details, spec_song_fallback, hid, h, pyLen, pyIndex0]
      · simp [get_song_details, spec_song_fallback, hid, h, pyLen, pyIndex0]
  · simp [get_song_details, spec_song_fallback, hid]

/-- Witness for C2 on a "songs"-array response. -/
theorem get_song_details_fallback_witness :
    get_song_details (.obj [("songs", .arr [.str "first"])]) "zz"
      = spec_song_fallback [("songs", .arr [.str "first"])] "zz" :=
  get_song_details_fallback [("songs", .arr [.str "first"])] "zz"
    (Or.inr ⟨[.str "first"], rfl⟩)

/-- Counterexample for C2 as stated: on the response with a dict under
"songs" (and no other key), the claimed chain returns the dict (it is the
first dict-valued top-level key, and "songs" does not map to a non-empty
array), but the code evaluates `data["songs"][0]`, the KeyError is caught,
and the result is null. -/
theorem get_song_details_fallback_cex :
    get_song_details (.obj [("songs", .obj [("a", .str "b")])]) "x"
      ≠ spec_song_fallback [("songs", .obj [("a", .str "b")])] "x" := by
  intro h
  exact Option.noConfusion h

/-- Claim C6: every choice key other than "1", "2", "3" resolves to the same
preset as key "1" (M4A, bitrate 320), and the whole yt-dlp option dict
coincides with the one for key "1"; in particular key "4" does. -/
theorem presets_get_default (k : String) (h1 : k ≠ "1") (h2 : k ≠ "2") (h3 : k ≠ "3") :
    presets_get k = presets_get "1" ∧
    presets_get "1" = ⟨"M4A 320kbps (Best Quality)", "m4a", some "320"⟩ ∧
    (∀ d : String, get_download_options d k = get_download_options d "1") := by
  have e1 : (("1" : String) == k) = false := beq_eq_false_iff_ne.mpr fun h => h1 h.symm
  have e2 : (("2" : String) == k) = false := beq_eq_false_iff_ne.mpr fun h => h2 h.symm
  have e3 : (("3" : String) == k) = false := beq_eq_false_iff_ne.mpr fun h => h3 h.symm
  have hk : presets_get k = presets_get "1" := by
    simp [presets_get, QUALITY_PRESETS, assocLookup, e1, e2, e3]
  refine ⟨hk, rfl, ?_⟩
  intro d
  simp only [get_download_options, hk]

/-- Witness for C6 at the unknown key "4". -/
theorem presets_get_default_witness :
    presets_get "4" = presets_get "1" ∧
    get_download_options "downloads" "4" = get_download_options "downloads" "1" :=
  ⟨(presets_get_default "4" (by decide) (by decide) (by decide)).1,
   (presets_get_default "4" (by decide) (by decide) (by decide)).2.2 "downloads"⟩

/-- Claim C7: preset "3" yields an empty postprocessor list and a null
bitrate (no transcoding), while presets "1" and "2" yield a single
FFmpegExtractAudio postprocessor targeting m4a at 320 and opus at 160
respectively. -/
theorem preset_postprocessing_spec (d : String) :
    (get_download_options d "3").postprocessors = [] ∧
    (presets_get "3").bitrate = none ∧
    (get_download_options d "1").postprocessors
      = [⟨"FFmpegExtractAudio", "m4a", some "320"⟩] ∧
    (get_download_options d "2").postprocessors
      = [⟨"FFmpegExtractAudio", "opus", some "160"⟩] :=
  ⟨rfl, rfl, rfl, rfl⟩

/-- Claim C8: a URL containing none of the platform substrings is classified
`other` and the run terminates failed immediately: the Spotify resolver is
not invoked and no download attempt is made (these are the only network
operations of `main`), for every oracle environment. -/
theorem main_other_no_attempt (url qc : String) (env : Env)
    (h1 : hasSub "spotify.com".data url.data = false)
    (h2 : hasSub "jiosaavn.com".data url.data = false)
    (h3 : hasSub "saavn.com".data url.data = false) :
    detect_url_type url = .other ∧ main_run url qc env = some ⟨.failed, false, []⟩ := by
  have hdet : detect_url_type url = .other := by simp [detect_url_type, h1, h2, h3]
  exact ⟨hdet, by simp [main_run, hdet]⟩

/-- Witness for C8 at a non-platform URL. -/
theorem main_other_no_attempt_witness :
    main_run "https://example.com/x" "1" ⟨some .null, true, true⟩
      = some ⟨.failed, false, []⟩ :=
  (main_other_no_attempt "https://example.com/x" "1" ⟨some .null, true, true⟩
    (by decide) (by decide) (by decide)).2

/-- Claim C9: durations are formatted as minutes and zero-padded two-digit
seconds without hour normalization: 125 seconds renders "2:05", 3661000
milliseconds renders "61:01", and every second count decomposes as
div/mod 60 into the rendered minutes and seconds. -/
theorem duration_format_spec :
    format_duration_sec 125 = "2:05" ∧
    format_duration_ms 3661000 = "61:01" ∧
    (∀ d : Nat, ∃ m s, d = 60 * m + s ∧ s < 60 ∧
      format_duration_sec d = toString m ++ ":" ++ pad2 s) ∧
    (∀ ms : Nat, format_duration_ms ms
      = toString (ms / 60000) ++ ":" ++ pad2 ((ms % 60000) / 1000)) := by
  refine ⟨by decide, by decide, ?_, fun _ => rfl⟩
  intro d
  exact ⟨d / 60, d % 60, (Nat.div_add_mod d 60).symm,
    Nat.mod_lt _ (by norm_num), rfl⟩

/-- Claim C10: whenever the details contain an "encrypted_media_url" key,
`get_audio_url` returns exactly the decryption result (including null on
decryption failure) and never falls back to a "media_preview_url" in the
same details; the preview URL is returned only when no "encrypted_media_url"
key exists. -/
theorem get_audio_url_spec (d : List (String × JVal)) (decrypt : JVal → Option JVal) :
    (∀ enc, assocLookup d "encrypted_media_url" = some enc →
      get_audio_url d decrypt = decrypt enc) ∧
    (assocLookup d "encrypted_media_url" = none →
      get_audio_url d decrypt
        = match assocLookup d "media_preview_url" with
          | some p => some p
          | none => none) := by
  constructor
  · intro enc h
    simp [get_audio_url, h]
  · intro h
    simp [get_audio_url, h]

/-- Witness for C10: decryption fails on details that also carry a preview
URL, and the result is null, not the preview. -/
theorem get_audio_url_spec_witness :
    get_audio_url [("encrypted_media_url", .str "ENC"), ("media_preview_url", .str "PREV")]
      (fun _ => none) = none :=
  (get_audio_url_spec
    [("encrypted_media_url", .str "ENC"), ("media_preview_url", .str "PREV")]
    (fun _ => none)).1 (.str "ENC") rfl

theorem mapOpt_name_objs (arts : List String) :
    mapOpt pySubscriptName (arts.map (fun a => .obj [("name", .str a)]))
      = some (arts.map JVal.str) := by
  induction arts with
  | nil => rfl
  | cons a t ih => simp [mapOpt, pySubscriptName, assocLookup, ih]

theorem strVals_map_str (arts : List String) :
    strVals (arts.map JVal.str) = some arts := by
  induction arts with
  | nil => rfl
  | cons a t ih => simp [strVals, ih]

/-- Claim C3 (amended): in the Spotify branch, a null metadata resolution —
and likewise a falsy one such as an empty JSON object, since line 337 tests
`if not track_info:` — terminates the run as failed with no download attempt
and no fallback; a truthy resolution whose field extraction completes
without a Python error always leads to exactly one search-mode download
attempt whose phrase is the track name, a space, and the space-joined artist
names (last conjunct, for well-shaped responses). A malformed truthy
response — for example an artist entry without a "name" key — instead raises
an uncaught error before any download; see the counterexample. -/
theorem main_spotify_branch (url qc : String) (env : Env)
    (hdet : detect_url_type url = .spotify) :
    (env.spotifyResult = none → main_run url qc env = some ⟨.failed, true, []⟩) ∧
    (∀ info, env.spotifyResult = some info → pyFalsy info = true →
      main_run url qc env = some ⟨.failed, true, []⟩) ∧
    (∀ info q, env.spotifyResult = some info → pyFalsy info = false →
      spotify_search_query info = some q →
      main_run url qc env
        = some ⟨(if env.youtubeOk then .succeeded else .failed), true, [.search q qc]⟩) ∧
    (∀ (n : String) (arts : List String),
      spotify_search_query
          (.obj [("name", .str n),
                 ("artists", .arr (arts.map (fun a => .obj [("name", .str a)])))])
        = some (n ++ " " ++ String.intercalate " " arts)) := by
  refine ⟨?_, ?_, ?_, ?_⟩
  · intro h
    simp [main_run, hdet, h]
  · intro info h hf
    simp [main_run, hdet, h, hf]
  · intro info q h hf hq
    simp [main_run, hdet, h, hf, hq]
  · intro n arts
    simp [spotify_search_query, assocLookup, pyIter, mapOpt_name_objs,
      pyJoin, strVals_map_str, pyStr]

/-- Witness for C3 on a well-shaped (truthy) metadata response. -/
theorem main_spotify_branch_witness :
    main_run "https://open.spotify.com/track/t" "1"
      ⟨some (.obj [("name", .str "Track"),
                   ("artists", .arr [.obj [("name", .str "A")]])]), false, true⟩
      = some ⟨.succeeded, true, [.search "Track A" "1"]⟩ := by
  have h := (main_spotify_branch "https://open.spotify.com/track/t" "1"
      ⟨some (.obj [("name", .str "Track"),
                   ("artists", .arr [.obj [("name", .str "A")]])]), false, true⟩
      (by decide)).2.2.1
      (.obj [("name", .str "Track"), ("artists", .arr [.obj [("name", .str "A")]])])
      "Track A" rfl rfl rfl
  exact h

/-- Counterexample for C3 as stated: metadata resolution succeeds with the
truthy response `{"artists": [{}]}` (it passes the line-337 truthiness
guard), yet the artist comprehension raises an uncaught KeyError in `main`
(modelled as `none`), so no download is ever invoked — the claim promised a
search-mode invocation whenever resolution succeeds. -/
theorem main_spotify_branch_cex :
    spotify_search_query (.obj [("artists", .arr [.obj []])]) = none ∧
    main_run "https://open.spotify.com/track/x" "1"
      ⟨some (.obj [("artists", .arr [.obj []])]), false, true⟩ = none :=
  ⟨rfl, rfl⟩

/-- Claim C4: in the JioSaavn branch with a failing primary attempt, the run
makes exactly the primary direct attempt followed by exactly one search-mode
fallback whose phrase is `jio_song_name url`; on the sample URL the phrase
is "slava funk"; and on every URL of the canonical shape the phrase is the
segment after "/song/" and before the next "/" with hyphens replaced by
spaces. -/
theorem main_jiosaavn_fallback (url qc : String) (env : Env)
    (hfail : env.jioDirectOk = false) (hdet : detect_url_type url = .jiosaavn) :
    main_run url qc env
      = some ⟨(if env.youtubeOk then .succeeded else .failed), false,
              [.direct url qc, .search (jio_song_name url) qc]⟩ ∧
    jio_song_name "https://www.jiosaavn.com/song/slava-funk/Mi8IRkxDAUM" = "slava funk" ∧
    (∀ (name rest : String),
      hasSub "/song/".data (name ++ "/" ++ rest).data = false →
      hasSub "/".data name.data = false →
      jio_song_name ("https://www.jiosaavn.com/song/" ++ name ++ "/" ++ rest)
        = dashToSpace name) := by
  refine ⟨by simp [main_run, hdet, hfail], by decide, ?_⟩
  intro name rest h1 h2
  have hx1 : ("https://www.jiosaavn.com/song/" ++ name ++ "/" ++ rest).data
      = ("https://www.jiosaavn.com" : String).data ++ ('/' :: "song/".data)
        ++ (name ++ "/" ++ rest).data := by
    have hd : ("https://www.jiosaavn.com/song/" : String).data
        = ("https://www.jiosaavn.com" : String).data ++ ('/' :: "song/".data) := by decide
    simp [String.data_append, hd, List.append_assoc]
  have hs1 : pySplit "/song/" ("https://www.jiosaavn.com/song/" ++ name ++ "/" ++ rest)
      = ["https://www.jiosaavn.com", name ++ "/" ++ rest] :=
    pySplit_split "/song/" "https://www.jiosaavn.com" (name ++ "/" ++ rest) _
      '/' "song/".data rfl hx1 (by decide) h1
  have hx2 : (name ++ "/" ++ rest).data
      = name.data ++ ('/' :: ([] : List Char)) ++ rest.data := by
    have hq : ("/" : String).data = ['/'] := by decide
    simp [String.data_append, hq]
  have hs2 : (pySplit "/" (name ++ "/" ++ rest)).headD "" = name :=
    pySplit_head "/" name rest (name ++ "/" ++ rest) '/' [] (by decide) hx2
      (cleanPre_single '/' name.data h2)
  unfold jio_song_name
  rw [hs1]
  have hlast : (["https://www.jiosaavn.com", name ++ "/" ++ rest] : List String).getLastD ""
      = name ++ "/" ++ rest := rfl
  rw [hlast, hs2]

/-- Witness for C4 at the sample URL with a failing primary attempt. -/
theorem main_jiosaavn_fallback_witness :
    main_run "https://www.jiosaavn.com/song/slava-funk/Mi8IRkxDAUM" "1" ⟨none, false, true⟩
      = some ⟨.succeeded, false,
          [.direct "https://www.jiosaavn.com/song/slava-funk/Mi8IRkxDAUM" "1",
           .search "slava funk" "1"]⟩ := by
  have h := (main_jiosaavn_fallback "https://www.jiosaavn.com/song/slava-funk/Mi8IRkxDAUM"
      "1" ⟨none, false, true⟩ rfl (by decide)).1
  rw [h]
  decide

/-- Claim C5: the extracted Spotify track identifier is the path segment
following "/track/", truncated at the first "?": on every URL of the
canonical shape whose id carries no "?" the extraction returns the id, and
on the sample URL it returns "3n3Ppam7vgaVa1iaRUc9Lp". -/
theorem extract_track_id_spec :
    (∀ id rest : String,
      hasSub "/track/".data (id ++ "?" ++ rest).data = false →
      hasSub "?".data id.data = false →
      extract_track_id ("https://open.spotify.com/track/" ++ id ++ "?" ++ rest) = id) ∧
    extract_track_id "https://open.spotify.com/track/3n3Ppam7vgaVa1iaRUc9Lp?si=abc"
      = "3n3Ppam7vgaVa1iaRUc9Lp" := by
  refine ⟨?_, by decide⟩
  intro id rest h1 h2
  have hx1 : ("https://open.spotify.com/track/" ++ id ++ "?" ++ rest).data
      = ("https://open.spotify.com" : String).data ++ ('/' :: "track/".data)
        ++ (id ++ "?" ++ rest).data := by
    have hd : ("https://open.spotify.com/track/" : String).data
        = ("https://open.spotify.com" : String).data ++ ('/' :: "track/".data) := by decide
    simp [String.data_append, hd, List.append_assoc]
  have hs1 : pySplit "/track/" ("https://open.spotify.com/track/" ++ id ++ "?" ++ rest)
      = ["https://open.spotify.com", id ++ "?" ++ rest] :=
    pySplit_split "/track/" "https://open.spotify.com" (id ++ "?" ++ rest) _
      '/' "track/".data rfl hx1 (by decide) h1
  have hx2 : (id ++ "?" ++ rest).data
      = id.data ++ ('?' :: ([] : List Char)) ++ rest.data := by
    have hq : ("?" : String).data = ['?'] := by decide
    simp [String.data_append, hq]
  have hs2 : (pySplit "?" (id ++ "?" ++ rest)).headD "" = id :=
    pySplit_head "?" id rest (id ++ "?" ++ rest) '?' [] (by decide) hx2
      (cleanPre_single '?' id.data h2)
  unfold extract_track_id
  rw [hs1]
  have hlast : (["https://open.spotify.com", id ++ "?" ++ rest] : List String).getLastD ""
      = id ++ "?" ++ rest := rfl
  rw [hlast, hs2]

/-- Witness for C5 on a small canonical URL. -/
theorem extract_track_id_spec_witness :
    extract_track_id ("https://open.spotify.com/track/" ++ "ABC" ++ "?" ++ "si=x") = "ABC" :=
  extract_track_id_spec.1 "ABC" "si=x" (by decide) (by decide)
